/-
Verification of the chatlog evidence-retrieval engine.

Shallow embedding of the Python sources under src/src/chatlog/:
  loader.py, metadata_indexer.py, metadata_index_loader.py,
  semantic_index.py, budget_manager.py, mcp_server.py (retrieval loop),
  cleaner.py (compress_messages selection skeleton).

Conventions of the embedding:
  * A JSONL log file is a `Log`: a list of `FileLine`s in file order
    (1-indexed positions); each line is blank, malformed JSON, or a
    parsed record.  Parsing of JSON text itself is not modelled: a
    `RawRecord` is the dictionary the Python code extracts from a
    successfully parsed line.
  * Python floats are modelled as exact fractions (the type `Q` below),
    compared by value (cross-multiplication).
  * Python dicts keep insertion order; they are modelled as association
    lists in first-insertion key order.  Python sets are modelled as
    insertion-ordered duplicate-free lists (only membership matters).
  * External services (the embedding API, the Poe scoring model, the
    keyword-search sibling tool) are oracles passed as parameters.
-/
import Mathlib

namespace Chatlog

/-- The metadata dictionary the code reads from one parsed JSONL line:
`content`, `timestamp`, `metadata.topics`, `metadata.sentiment`,
`metadata.facts` (only its keys are ever indexed), and
`metadata.information_density`. -/
structure RawRecord where
  content : String
  timestamp : String
  topics : List String
  sentiment : String
  factKeys : List String
  infoDensity : String
deriving Repr, DecidableEq

/-- One physical line of the log file: blank, malformed JSON
(`json.JSONDecodeError`), or a successfully parsed record. -/
inductive FileLine where
  | blank
  | malformed
  | record (r : RawRecord)
deriving Repr, DecidableEq

/-- A log file: its lines in order; line numbers are 1-indexed. -/
abbrev Log := List FileLine

/- ------------------------------------------------------------------ -/
/- Exact fractions: the model of Python floats                          -/
/- ------------------------------------------------------------------ -/

/-- Python float values are modelled as exact fractions with a positive
denominator.  Fractions are kept unnormalized; value comparison is by
cross-multiplication (`Q.equiv`, `Q.le`, `Q.lt`), which is what every
float comparison in the source becomes. -/
structure Q where
  num : Int
  den : Nat
  den_pos : 0 < den

instance : DecidableEq Q := fun a b =>
  decidable_of_iff (a.num = b.num ∧ a.den = b.den) (by
    cases a; cases b; simp)

instance : Repr Q := ⟨fun q _ => repr (q.num, q.den)⟩

namespace Q

/-- Embed an integer. -/
def ofInt (n : Int) : Q := ⟨n, 1, Nat.one_pos⟩

instance (n : Nat) : OfNat Q n := ⟨ofInt n⟩

/-- The fraction `n / d` (a zero denominator is clamped to 1; it is
never used that way). -/
def ofFrac (n : Int) (d : Nat) : Q :=
  ⟨n, max d 1, Nat.lt_of_lt_of_le Nat.one_pos (le_max_right d 1)⟩

/-- Value equality (`==` on floats). -/
def equiv (a b : Q) : Prop := a.num * (b.den : Int) = b.num * (a.den : Int)

/-- Value order (`<=` on floats). -/
def le (a b : Q) : Prop := a.num * (b.den : Int) ≤ b.num * (a.den : Int)

/-- Strict value order (`<` on floats). -/
def lt (a b : Q) : Prop := a.num * (b.den : Int) < b.num * (a.den : Int)

instance : DecidableRel equiv := fun a b => by unfold equiv; infer_instance

instance : DecidableRel le := fun a b => by unfold le; infer_instance

instance : DecidableRel lt := fun a b => by unfold lt; infer_instance

/-- Addition. -/
def add (a b : Q) : Q :=
  ⟨a.num * (b.den : Int) + b.num * (a.den : Int), a.den * b.den,
    Nat.mul_pos a.den_pos b.den_pos⟩

instance : Add Q := ⟨add⟩

/-- Multiplication. -/
def mul (a b : Q) : Q :=
  ⟨a.num * b.num, a.den * b.den, Nat.mul_pos a.den_pos b.den_pos⟩

instance : Mul Q := ⟨mul⟩

/-- Division (only ever used with a positive literal divisor; a
non-positive divisor falls back to a clamped denominator exactly like
`ofFrac`). -/
def div (a b : Q) : Q :=
  ofFrac (if b.num < 0 then -(a.num * (b.den : Int)) else a.num * (b.den : Int))
    (a.den * b.num.natAbs)

instance : Div Q := ⟨div⟩

/-- Python `max(a, b)`. -/
def qmax (a b : Q) : Q := if le a b then b else a

/-- Python `min(a, b)`. -/
def qmin (a b : Q) : Q := if le a b then a else b

/-- `math.floor` (used to model `round(x, 4)`). -/
def qfloor (a : Q) : Int := a.num.fdiv (a.den : Int)

end Q

/- ------------------------------------------------------------------ -/
/- Structural string helpers (Python `str` methods)                     -/
/- ------------------------------------------------------------------ -/

/-- Python `str.strip()` (whitespace at both ends). -/
def pyStrip (s : String) : String :=
  ⟨(((s.data.dropWhile Char.isWhitespace).reverse.dropWhile Char.isWhitespace).reverse)⟩

/-- Python `str.rstrip()`. -/
def pyStripRight (s : String) : String :=
  ⟨((s.data.reverse.dropWhile Char.isWhitespace).reverse)⟩

/-- Python slicing `s[:n]` (by code point). -/
def strTake (s : String) (n : Nat) : String := ⟨s.data.take n⟩

/-- Code-point lexicographic `<=` on strings (Python string
comparison), as a structural recursion. -/
def charsLE : List Char → List Char → Bool
  | [], _ => true
  | _ :: _, [] => false
  | a :: as, b :: bs =>
    if a < b then true
    else if b < a then false
    else charsLE as bs

/-- Python `a <= b` on strings. -/
def strLE (a b : String) : Prop := charsLE a.data b.data = true

instance : DecidableRel strLE := fun a b => by unfold strLE; infer_instance

/-- Pair every line with its 1-indexed line number, starting at `n`
(mirrors `enumerate(f, 1)`). -/
def enumFrom : Nat → Log → List (Nat × FileLine)
  | _, [] => []
  | n, l :: ls => (n, l) :: enumFrom (n + 1) ls

/-- The line stored at 1-indexed position `n` of the file. -/
def lineAt (log : Log) (n : Nat) : Option FileLine :=
  if n = 0 then none else log.get? (n - 1)

/-- The parsed record at 1-indexed file line `n`, when that line parses. -/
def recordAt (log : Log) (n : Nat) : Option RawRecord :=
  match lineAt log n with
  | some (.record r) => some r
  | _ => none

/- ------------------------------------------------------------------ -/
/- loader.py : ChatMessage and ChatlogLoader                           -/
/- ------------------------------------------------------------------ -/

/-- `loader.ChatMessage` (the fields the claims touch).  `sender` and
`message` are derived in `__post_init__` by splitting `content` on the
first `": "`. -/
structure ChatMessage where
  line_number : Nat
  content : String
  timestamp : String
  sender : String
  message : String
  topics : List String
  sentiment : String
  factKeys : List String
  information_density : String
deriving Repr, DecidableEq

/-- Find the first occurrence of `sep` in a character list, returning
the part before it and the part after it. -/
def findSplit (sep : List Char) : List Char → Option (List Char × List Char)
  | [] => none
  | c :: rest =>
    if (sep.isPrefixOf (c :: rest)) then some ([], (c :: rest).drop sep.length)
    else (findSplit sep rest).map (fun pr => (c :: pr.1, pr.2))

/-- `ChatMessage.__post_init__`: `content.split(": ", 1)` — split on the
first `": "` when present. -/
def splitSender (content : String) : String × String :=
  match findSplit (": ".data) content.data with
  | some pr => (⟨pr.1⟩, ⟨pr.2⟩)
  | none => ("", content)

/-- Build the `ChatMessage` that `ChatlogLoader.load` constructs for the
record parsed at file line `n`.  Topics: `t.strip()` for each string
entry whose stripped form is non-empty. -/
def mkChatMessage (n : Nat) (r : RawRecord) : ChatMessage :=
  let sm := splitSender r.content
  { line_number := n
    content := r.content
    timestamp := r.timestamp
    sender := sm.1
    message := sm.2
    topics := (r.topics.map pyStrip).filter (· ≠ "")
    sentiment := r.sentiment
    factKeys := r.factKeys
    information_density := r.infoDensity }

/-- The loading pass from line number `n` on: blank and malformed lines
are skipped (`continue`), parsed lines append a `ChatMessage` carrying
their file line number. -/
def loadFrom : Nat → Log → List ChatMessage
  | _, [] => []
  | n, .record r :: ls => mkChatMessage n r :: loadFrom (n + 1) ls
  | n, .blank :: ls => loadFrom (n + 1) ls
  | n, .malformed :: ls => loadFrom (n + 1) ls

/-- `ChatlogLoader.load`: the list `self._messages`. -/
def load (log : Log) : List ChatMessage := loadFrom 1 log

/-- `ChatlogLoader.get_message(line_number)`: converts to the 0-indexed
`idx = line_number - 1` and returns `self._messages[idx]` when
`0 <= idx < len(self._messages)`, else `None`.  The argument is an
`Int` because the Python caller may pass anything. -/
def get_message (msgs : List ChatMessage) (line_number : Int) : Option ChatMessage :=
  let idx := line_number - 1
  if 0 ≤ idx ∧ idx < msgs.length then msgs.get? idx.toNat else none

/- ------------------------------------------------------------------ -/
/- metadata_indexer.py : MetadataIndexer                               -/
/- ------------------------------------------------------------------ -/

/-- `defaultdict(list)` append: `d[k].append(n)`.  Association list in
first-insertion key order, mirroring Python dict order. -/
def dictAppend (d : List (String × List Nat)) (k : String) (n : Nat) :
    List (String × List Nat) :=
  match d with
  | [] => [(k, [n])]
  | (k', v) :: rest =>
    if k' = k then (k', v ++ [n]) :: rest else (k', v) :: dictAppend rest k n

/-- `d.get(k, [])`. -/
def dictGet (d : List (String × List Nat)) (k : String) : List Nat :=
  match d with
  | [] => []
  | (k', v) :: rest => if k' = k then v else dictGet rest k

/-- Python `set.add`: insertion-ordered duplicate-free list. -/
def setInsert (s : List String) (x : String) : List String :=
  if x ∈ s then s else s ++ [x]

/-- In-memory state of `MetadataIndexer` after `build_index`. -/
structure MetadataIndex where
  topic_index : List (String × List Nat)
  sentiment_index : List (String × List Nat)
  fact_keys_index : List (String × List Nat)
  info_density_index : List (String × List Nat)
  available_topics : List String
  line_count : Nat
deriving Repr, DecidableEq

def MetadataIndex.empty : MetadataIndex :=
  { topic_index := [], sentiment_index := [], fact_keys_index := []
    info_density_index := [], available_topics := [], line_count := 0 }

/-- The topic keys indexed for one record: each raw topic entry that is
non-empty *before* stripping is stripped and used as the key
(`if topic: topic = topic.strip(); topic_index[topic].append(line_num)`). -/
def indexTopicKeys (r : RawRecord) : List String :=
  (r.topics.filter (· ≠ "")).map pyStrip

/-- One step of the topic-indexing loop of `build_index`:
`topic_index[topic].append(line_num); available_topics.add(topic)`. -/
def topicStep (n : Nat) (acc : MetadataIndex) (t : String) : MetadataIndex :=
  { acc with
    topic_index := dictAppend acc.topic_index t n
    available_topics := setInsert acc.available_topics t }

/-- One step of the fact-key indexing loop. -/
def factStep (n : Nat) (acc : MetadataIndex) (k : String) : MetadataIndex :=
  { acc with fact_keys_index := dictAppend acc.fact_keys_index k n }

/-- Indexing of one successfully parsed line (the body of the `try`
block of `MetadataIndexer.build_index`). -/
def indexRecord (idx : MetadataIndex) (n : Nat) (r : RawRecord) : MetadataIndex :=
  let idx1 := (indexTopicKeys r).foldl (topicStep n) idx
  let idx2 := if r.sentiment ≠ "" then
      { idx1 with sentiment_index := dictAppend idx1.sentiment_index r.sentiment n }
    else idx1
  let idx3 := r.factKeys.foldl (factStep n) idx2
  let idx4 := if r.infoDensity ≠ "" then
      { idx3 with info_density_index := dictAppend idx3.info_density_index r.infoDensity n }
    else idx3
  { idx4 with line_count := n }

/-- The indexing pass: blank lines and `json.JSONDecodeError` lines are
skipped; `line_count` is set to the line number of each parsed line. -/
def buildFrom : Nat → Log → MetadataIndex → MetadataIndex
  | _, [], idx => idx
  | n, .record r :: ls, idx => buildFrom (n + 1) ls (indexRecord idx n r)
  | n, .blank :: ls, idx => buildFrom (n + 1) ls idx
  | n, .malformed :: ls, idx => buildFrom (n + 1) ls idx

/-- `MetadataIndexer.build_index`. -/
def build_index (log : Log) : MetadataIndex := buildFrom 1 log MetadataIndex.empty

/- ------------------------------------------------------------------ -/
/- metadata_indexer.save_index / metadata_index_loader.load_index      -/
/- ------------------------------------------------------------------ -/

/-- JSON values, as far as the index artifact needs them.  `json.dump`
followed by `json.load` is the identity on such values (strings and
ints round-trip, and Python dicts preserve key order). -/
inductive Json where
  | str (s : String)
  | num (n : Int)
  | arr (xs : List Json)
  | obj (kvs : List (String × Json))
deriving Repr

/-- Encode one `topic -> [line_numbers]` dictionary. -/
def encodeDict (d : List (String × List Nat)) : Json :=
  .obj (d.map (fun kv => (kv.1, .arr (kv.2.map (fun n => .num (Int.ofNat n))))))

/-- `MetadataIndexer.save_index`: the JSON document written to disk.
`available_topics` is `sorted(self.available_topics)`. -/
def save_index (idx : MetadataIndex) : Json :=
  .obj
    [ ("topic_index", encodeDict idx.topic_index)
    , ("sentiment_index", encodeDict idx.sentiment_index)
    , ("fact_keys_index", encodeDict idx.fact_keys_index)
    , ("info_density_index", encodeDict idx.info_density_index)
    , ("available_topics",
        .arr ((idx.available_topics.insertionSort strLE).map .str))
    , ("line_count", .num (Int.ofNat idx.line_count)) ]

/-- `data.get(key)` on a decoded JSON object. -/
def jsonGet (kvs : List (String × Json)) (k : String) : Option Json :=
  match kvs with
  | [] => none
  | (k', v) :: rest => if k' = k then some v else jsonGet rest k

/-- Decode a line-number array.  (`load_index` performs no validation;
this decoder agrees with Python on every value `save_index` can emit,
which is all the round-trip claim touches.) -/
def decodeNats : Json → List Nat
  | .arr xs => xs.filterMap (fun j => match j with | .num n => some n.toNat | _ => none)
  | _ => []

/-- Decode one index dictionary. -/
def decodeDict : Json → List (String × List Nat)
  | .obj kvs => kvs.map (fun kv => (kv.1, decodeNats kv.2))
  | _ => []

/-- Decode the `available_topics` array. -/
def decodeStrs : Json → List String
  | .arr xs => xs.filterMap (fun j => match j with | .str s => some s | _ => none)
  | _ => []

/-- State of `MetadataIndexLoader` after a successful `load_index`. -/
structure LoadedIndex where
  topic_index : List (String × List Nat)
  sentiment_index : List (String × List Nat)
  fact_keys_index : List (String × List Nat)
  info_density_index : List (String × List Nat)
  available_topics : List String
  line_count : Nat
deriving Repr, DecidableEq

/-- `MetadataIndexLoader.load_index` on an artifact that exists and
parses: each field is read with `data.get(field, default)`. -/
def load_index (j : Json) : LoadedIndex :=
  match j with
  | .obj kvs =>
    { topic_index := ((jsonGet kvs "topic_index").map decodeDict).getD []
      sentiment_index := ((jsonGet kvs "sentiment_index").map decodeDict).getD []
      fact_keys_index := ((jsonGet kvs "fact_keys_index").map decodeDict).getD []
      info_density_index := ((jsonGet kvs "info_density_index").map decodeDict).getD []
      available_topics := ((jsonGet kvs "available_topics").map decodeStrs).getD []
      line_count :=
        match jsonGet kvs "line_count" with
        | some (.num n) => n.toNat
        | _ => 0 }
  | _ =>
    { topic_index := [], sentiment_index := [], fact_keys_index := []
      info_density_index := [], available_topics := [], line_count := 0 }

/-- `MetadataIndexLoader.search_by_topic_exact`:
`self._topic_index.get(topic, [])`. -/
def search_by_topic_exact (ld : LoadedIndex) (topic : String) : List Nat :=
  dictGet ld.topic_index topic

/-- `sorted(set)` over naturals. -/
def sortedDedup (xs : List Nat) : List Nat :=
  (xs.dedup.insertionSort (· ≤ ·))

/-- `MetadataIndexLoader.get_high_value_messages`: sorted union of the
"high" and "medium" density buckets. -/
def get_high_value_messages (ld : LoadedIndex) : List Nat :=
  sortedDedup (dictGet ld.info_density_index "high" ++ dictGet ld.info_density_index "medium")

/- ------------------------------------------------------------------ -/
/- metadata_index_loader.get_messages_by_lines                         -/
/- ------------------------------------------------------------------ -/

/-- One entry of the `get_messages_by_lines` result: the parsed record
of a target file line, tagged with its line number and whether it was
directly requested (`is_match`) or pure context. -/
structure FetchedMsg where
  line_number : Nat
  record : RawRecord
  is_match : Bool
deriving Repr, DecidableEq

/-- Context expansion: `max(1, ln + offset)` for
`offset in range(-context_before, context_after + 1)`. -/
def expandLine (ln : Nat) (before after : Nat) : List Nat :=
  (List.range (before + after + 1)).map
    (fun i => ((ln : Int) + (i : Int) - (before : Int)).toNat.max 1)

/-- The sorted, deduplicated target line set (`sorted(expanded)`). -/
def targetLines (lines : List Nat) (before after : Nat) : List Nat :=
  sortedDedup (lines.flatMap (fun ln => expandLine ln before after))

/-- `MetadataIndexLoader.get_messages_by_lines`: scan the file in line
order, keep target lines that are non-blank and parse, and flag
`is_match := line_num in line_numbers`. -/
def get_messages_by_lines (log : Log) (lines : List Nat)
    (before after : Nat) : List FetchedMsg :=
  if lines = [] then []
  else
    (targetLines lines before after).filterMap
      (fun n =>
        match recordAt log n with
        | some r => some { line_number := n, record := r, is_match := n ∈ lines }
        | none => none)

/- ------------------------------------------------------------------ -/
/- semantic_index.py : SemanticIndex                                   -/
/- ------------------------------------------------------------------ -/

/-- The on-disk artifacts of `SemanticIndex`: the row-major embedding
matrix (`.npy`) and the parallel `line_numbers` array of the manifest. -/
structure SemArtifacts where
  embeddings : List (List Q)
  line_numbers : List Nat
deriving Repr

/-- Outcome of the external `_embed_texts([query])[0]` call: the
embedding vector, or the `RuntimeError` message raised after the three
retries are exhausted (or when the API key is absent). -/
inductive EmbedOutcome where
  | ok (vec : List Q)
  | fail (msg : String)
deriving Repr

/-- `SemanticIndex.search`.  `art = none` covers `is_available()` being
false as well as a `load()` that raises (both make `load()` return
`False`, whereupon `search` returns `[]`).  With artifacts loaded the
query is embedded; a failing embedding call raises, which is the
`Except.error` branch.  The numeric cosine kernel over floats is the
oracle `sim row query`; ranking takes the `top_k` best scores in
descending order (`argpartition` + `sorted(..., reverse=True)`). -/
def semSearch (art : Option SemArtifacts) (embed : EmbedOutcome)
    (sim : List Q → List Q → Q) (top_k : Nat) :
    Except String (List (Nat × Q)) :=
  match art with
  | none => .ok []
  | some a =>
    match embed with
    | .fail msg => .error ("Embedding request failed: " ++ msg)
    | .ok q =>
      if q.length = 0 then .ok []
      else
        let sims := a.embeddings.map (fun row => sim row q)
        if sims.length = 0 then .ok []
        else
          let k := min top_k sims.length
          let idxScores := (List.range sims.length).map
            (fun i => (i, (sims.get? i).getD 0))
          let ranked := (idxScores.insertionSort (fun x y => Q.le y.2 x.2)).take k
          .ok (ranked.map (fun p => ((a.line_numbers.get? p.1).getD 0, p.2)))

/- ------------------------------------------------------------------ -/
/- budget_manager.py : ToolBudget                                      -/
/- ------------------------------------------------------------------ -/

/-- `ToolBudget`: three configurable ceilings and the running
counters.  All quantities involved are non-negative in every reachable
state (counters start at 0 and only grow by non-negative amounts), so
`Nat` is faithful; `max(0, a - b)` becomes truncated subtraction. -/
structure ToolBudget where
  max_tool_calls : Nat := 3
  max_loaded_messages : Nat := 40
  max_tool_result_chars : Nat := 12000
  tool_calls : Nat := 0
  loaded_messages : Nat := 0
  total_result_chars : Nat := 0
  tool_history : List String := []
deriving Repr, DecidableEq

namespace ToolBudget

/-- `ToolBudget.can_call_tool`. -/
def can_call_tool (b : ToolBudget) : Bool := b.tool_calls < b.max_tool_calls

/-- `ToolBudget.record_tool_call`. -/
def record_tool_call (b : ToolBudget) (name : String) (chars : Nat) : ToolBudget :=
  { b with
    tool_calls := b.tool_calls + 1
    total_result_chars := b.total_result_chars + chars
    tool_history := b.tool_history ++ [name] }

/-- `ToolBudget.record_messages`. -/
def record_messages (b : ToolBudget) (count : Nat) : ToolBudget :=
  { b with loaded_messages := b.loaded_messages + count }

/-- `ToolBudget.is_over_budget`. -/
def is_over_budget (b : ToolBudget) : Bool :=
  b.max_tool_calls ≤ b.tool_calls ∨
  b.max_loaded_messages ≤ b.loaded_messages ∨
  b.max_tool_result_chars ≤ b.total_result_chars

/-- `get_remaining()["tool_calls"]`. -/
def remainingCalls (b : ToolBudget) : Nat := b.max_tool_calls - b.tool_calls

/-- `get_remaining()["messages"]`. -/
def remainingMsgs (b : ToolBudget) : Nat := b.max_loaded_messages - b.loaded_messages

/-- `get_remaining()["chars"]`. -/
def remainingChars (b : ToolBudget) : Nat := b.max_tool_result_chars - b.total_result_chars

/-- The phrase appended for a tripped tool-call ceiling. -/
def callsPhrase (b : ToolBudget) : String :=
  "已达工具调用上限(" ++ (toString b.max_tool_calls ++ "次)")

/-- The phrase appended for a tripped loaded-messages ceiling. -/
def msgsPhrase (b : ToolBudget) : String :=
  "已达消息加载上限(" ++ (toString b.max_loaded_messages ++ "条)")

/-- The phrase appended for a tripped result-characters ceiling. -/
def charsPhrase (b : ToolBudget) : String :=
  "已达结果字符上限(" ++ (toString b.max_tool_result_chars ++ "字符)")

/-- The `gaps` list built by `get_gap_annotation`. -/
def gapList (b : ToolBudget) : List String :=
  (if b.remainingCalls = 0 then [b.callsPhrase] else []) ++
  (if b.remainingMsgs = 0 then [b.msgsPhrase] else []) ++
  (if b.remainingChars = 0 then [b.charsPhrase] else [])

/-- `ToolBudget.get_gap_annotation`: joins the tripped-ceiling phrases,
or returns `""` when none tripped. -/
def gapNote (b : ToolBudget) : String :=
  if b.gapList = [] then ""
  else "⚠️ 证据收集受预算限制: " ++ String.intercalate "; " b.gapList

end ToolBudget

/-- One recorded operation on a `ToolBudget`. -/
inductive BudgetOp where
  | toolCall (name : String) (chars : Nat)
  | messages (count : Nat)
deriving Repr

/-- Apply one operation. -/
def applyOp (b : ToolBudget) : BudgetOp → ToolBudget
  | .toolCall name chars => b.record_tool_call name chars
  | .messages count => b.record_messages count

/-- Apply a sequence of operations. -/
def applyOps (b : ToolBudget) (ops : List BudgetOp) : ToolBudget :=
  ops.foldl applyOp b

/-- A fresh budget with the given ceilings (what
`BudgetManager.get_budget` constructs for a new session). -/
def mkBudget (maxCalls maxMsgs maxChars : Nat) : ToolBudget :=
  { max_tool_calls := maxCalls
    max_loaded_messages := maxMsgs
    max_tool_result_chars := maxChars }

/- ------------------------------------------------------------------ -/
/- mcp_server.py : _retrieve_evidence_impl                             -/
/- ------------------------------------------------------------------ -/

/-- One coerced dimension of the evidence plan (the seed lists are the
result of `_coerce_list`, already plain string lists). -/
structure DimensionPlan where
  name : String := ""
  intent : String := ""
  topic_seeds : List String := []
  keyword_seeds : List String := []
  semantic_queries : List String := []
  counter_queries : List String := []
  min_evidence : Nat := 3
deriving Repr, DecidableEq

/-- A formatted evidence entry (`formatted_messages` / `counter_store`
element).  The per-dimension response projects a subset of these fields;
the projection never changes line membership, so the full record is
carried here. -/
structure EvidenceItem where
  line : Nat
  time : String
  sender : String
  content : String
  snippet : String
  topics : List String
  score : Q
  dimension : String
  mentions_target : Bool
  is_counter : Bool
deriving Repr, DecidableEq

/-- One entry of `dimension_outputs`. -/
structure DimensionOutput where
  name : String
  intent : String
  evidence : List EvidenceItem
  counter_evidence : List EvidenceItem
  coverage_topic_seeds : List String
  coverage_keyword_seeds : List String
  coverage_semantic_queries : List String
  coverage_counter_queries : List String
  omitted_count : Nat
  min_evidence : Nat
deriving Repr, DecidableEq

/-- The immutable collaborators of one `_retrieve_evidence_impl` call.
`semOracle` stands for `semantic_index.search` (its scores come from an
external embedding service), `keywordOracle` for the line numbers
returned by the `_search_by_keywords_impl` sibling tool, `relOracle`
and `shrinkOracle` for the Poe model's relevance scores and compressed
texts inside `compress_messages`. -/
structure RetrievalEnv where
  log : Log
  index : LoadedIndex
  semAvailable : Bool
  semOracle : String → Nat → List (Nat × Q)
  keywordOracle : List String → List Nat
  poeConfigured : Bool
  relOracle : Nat → Nat
  shrinkOracle : String → String

/-- The request-level knobs of `_retrieve_evidence_impl`, after the
`min(...)` capping of the argument parsing, together with the module
constants.  `kw_weight` and `sem_weight` are the renormalized weights
(they sum to 1 when the raw env weights have positive sum). -/
structure RetrievalParams where
  max_per_dimension : Nat
  max_total_messages : Nat
  snippet_chars : Nat
  context_before : Nat
  context_after : Nat
  use_semantic : Bool
  use_compression : Bool
  target_person : Option String
  kw_weight : Q
  sem_weight : Q
  max_content_chars : Nat
  max_list_items : Nat

/-- `dict.get(k, 0) + 1` counting insert (only key membership is ever
read downstream). -/
def countInsert (d : List (Nat × Nat)) (k : Nat) : List (Nat × Nat) :=
  match d with
  | [] => [(k, 1)]
  | (k', v) :: rest =>
    if k' = k then (k', v + 1) :: rest else (k', v) :: countInsert rest k

/-- `d[k] = max(d.get(k, 0.0), v)`, keeping first-insertion key order. -/
def maxInsert (d : List (Nat × Q)) (k : Nat) (v : Q) : List (Nat × Q) :=
  match d with
  | [] => [(k, v)]
  | (k', v') :: rest =>
    if k' = k then (k', Q.qmax v' v) :: rest else (k', v') :: maxInsert rest k v

/-- Key membership in a count dict. -/
def hasKey (d : List (Nat × Nat)) (k : Nat) : Bool := d.any (fun kv => kv.1 = k)

/-- Lookup in a score dict. -/
def qLookup (d : List (Nat × Q)) (k : Nat) : Option Q :=
  (d.find? (fun kv => kv.1 = k)).map (fun kv => kv.2)

/-- `max(0.0, min(1.0, x))`. -/
def clamp01 (x : Q) : Q := Q.qmax 0 (Q.qmin 1 x)

/-- Python `round(x, 4)` on the score floats, modelled on ℚ as rounding
to the nearest ten-thousandth (binary floats do not hit exact halfway
cases, so the tie direction is immaterial). -/
def roundQ4 (x : Q) : Q := Q.ofFrac (Q.qfloor (x * 10000 + Q.ofFrac 1 2)) 10000

/-- Python substring test `needle in hay`. -/
def containsSub (needle hay : String) : Bool := decide (needle.data <:+: hay.data)

/-- `_build_snippet`. -/
def buildSnippet (text : String) (maxChars : Nat) : String :=
  if maxChars = 0 ∨ text.length ≤ maxChars then text
  else pyStripRight (strTake text maxChars) ++ "…"

/-- The fusion score `_score` of one candidate line:
`kw_weight·[topic or keyword hit] + sem_weight·semantic + 0.15·[high info]`. -/
def dimScore (p : RetrievalParams) (highs : List Nat)
    (tl kl : List (Nat × Nat)) (sl : List (Nat × Q)) (ln : Nat) : Q :=
  (if hasKey tl ln || hasKey kl ln then p.kw_weight else 0) +
  (match qLookup sl ln with
   | some v => p.sem_weight * v
   | none => 0) +
  (if ln ∈ highs then Q.ofFrac 15 100 else 0)

/-- The ordering realised by
`sorted(combined_lines, key=lambda ln: (_score(ln), -ln), reverse=True)`:
`a` precedes `b` iff `a`'s key `(score, -line)` is lexicographically at
least `b`'s, i.e. higher score first and, on equal scores, *smaller*
line number first. -/
def rankGE (score : Nat → Q) (a b : Nat) : Prop :=
  Q.lt (score b) (score a) ∨ (Q.equiv (score a) (score b) ∧ a ≤ b)

instance (score : Nat → Q) : DecidableRel (rankGE score) := fun a b => by
  unfold rankGE; infer_instance

/-- The ordering of
`formatted_messages.sort(key=lambda m: (m["mentions_target"], m["score"]), reverse=True)`. -/
def itemGE (a b : EvidenceItem) : Prop :=
  (a.mentions_target = true ∧ b.mentions_target = false) ∨
  (a.mentions_target = b.mentions_target ∧ Q.le b.score a.score)

instance : DecidableRel itemGE := fun a b => by
  unfold itemGE; infer_instance

/-- Build one formatted evidence entry from a fetched record.  `topics`
is `msg.get("topics", [])`: the fetched dict has no top-level `topics`
key (only `metadata.topics`), so the source always emits `[]` here. -/
def buildItem (p : RetrievalParams) (dimName : String) (sc : Q)
    (isCounter : Bool) (msg : FetchedMsg) : EvidenceItem :=
  let sb := splitSender msg.record.content
  let body := sb.2
  let full := if 0 < p.max_content_chars ∧ p.max_content_chars < body.length
    then strTake body p.max_content_chars ++ "…" else body
  let mentions := match p.target_person with
    | none => false
    | some t => containsSub t sb.1 || containsSub t full
  { line := msg.line_number
    time := strTake msg.record.timestamp 19
    sender := if sb.1 = "" then "未知" else sb.1
    content := full
    snippet := buildSnippet full p.snippet_chars
    topics := []
    score := sc
    dimension := dimName
    mentions_target := mentions
    is_counter := isCounter }

/-- Result of processing one dimension: its response entry, the entries
appended to `evidence_store`, and the message budget left afterwards. -/
structure DimStep where
  output : DimensionOutput
  stored : List EvidenceItem
  remaining : Nat

/-- `name = dim.get("name") or "未命名维度"`. -/
def dimName (dim : DimensionPlan) : String :=
  if dim.name = "" then "未命名维度" else dim.name

/-- Topic seeds after silently dropping the ones absent from
`available_topics`. -/
def dimTopicSeeds (env : RetrievalEnv) (dim : DimensionPlan) : List String :=
  dim.topic_seeds.filter (· ∈ env.index.available_topics)

/-- The `topic_lines` count dict. -/
def dimTopicLines (env : RetrievalEnv) (dim : DimensionPlan) : List (Nat × Nat) :=
  (dimTopicSeeds env dim).foldl
    (fun acc t => (search_by_topic_exact env.index t).foldl countInsert acc) []

/-- The `semantic_lines` score dict: per line the maximum across
queries of the clamped `(raw_cosine + 1) / 2` normalization. -/
def dimSemLines (env : RetrievalEnv) (p : RetrievalParams)
    (dim : DimensionPlan) : List (Nat × Q) :=
  if p.use_semantic ∧ dim.semantic_queries ≠ [] ∧ env.semAvailable then
    let semTopK := min p.max_list_items (p.max_per_dimension * 4)
    dim.semantic_queries.foldl
      (fun acc q => (env.semOracle q semTopK).foldl
        (fun a pr => maxInsert a pr.1 (clamp01 ((pr.2 + 1) / 2))) acc) []
  else []

/-- The `keyword_lines` count dict: the fallback fires only when there
are keyword seeds and both other recall paths came up empty. -/
def dimKwLines (env : RetrievalEnv) (p : RetrievalParams)
    (dim : DimensionPlan) : List (Nat × Nat) :=
  if dim.keyword_seeds ≠ [] ∧ dimTopicLines env dim = [] ∧ dimSemLines env p dim = [] then
    (env.keywordOracle dim.keyword_seeds).foldl countInsert []
  else []

/-- `combined_lines` (a Python set; represented sorted and
deduplicated — every downstream consumer is order-insensitive). -/
def dimCombined (env : RetrievalEnv) (p : RetrievalParams)
    (dim : DimensionPlan) : List Nat :=
  sortedDedup ((dimTopicLines env dim).map (fun kv => kv.1)
    ++ (dimKwLines env p dim).map (fun kv => kv.1)
    ++ (dimSemLines env p dim).map (fun kv => kv.1))

/-- The fusion score `_score` of this dimension. -/
def dimScoreFn (env : RetrievalEnv) (p : RetrievalParams)
    (dim : DimensionPlan) : Nat → Q :=
  dimScore p (get_high_value_messages env.index) (dimTopicLines env dim)
    (dimKwLines env p dim) (dimSemLines env p dim)

/-- `ranked_lines = sorted(combined_lines, key=lambda ln: (_score(ln), -ln),
reverse=True)`.  The key is injective on the (duplicate-free) candidate
set, so any sort w.r.t. the induced total preorder yields the same list
Python produces. -/
def dimRanked (env : RetrievalEnv) (p : RetrievalParams)
    (dim : DimensionPlan) : List Nat :=
  (dimCombined env p dim).insertionSort (rankGE (dimScoreFn env p dim))

/-- `selected_lines = ranked_lines[:min(max_per_dimension, remaining_budget)]`. -/
def dimSelected (env : RetrievalEnv) (p : RetrievalParams)
    (dim : DimensionPlan) (remaining : Nat) : List Nat :=
  (dimRanked env p dim).take (min p.max_per_dimension remaining)

/-- `formatted_messages` before the final sort: the `is_match` entries
of the context-expanded fetch, formatted, with the (rounded) fusion
score attached. -/
def dimFormatted (env : RetrievalEnv) (p : RetrievalParams)
    (dim : DimensionPlan) (remaining : Nat) : List EvidenceItem :=
  ((get_messages_by_lines env.log (dimSelected env p dim remaining)
      p.context_before p.context_after).filter (fun m => m.is_match)).map
    (fun m => buildItem p (dimName dim) (roundQ4 (dimScoreFn env p dim m.line_number)) false m)

/-- The emitted supporting evidence of one dimension: `formatted_messages`
sorted by `(mentions_target, score)` descending and truncated to
`desired` once more. -/
def dimFinal (env : RetrievalEnv) (p : RetrievalParams)
    (dim : DimensionPlan) (remaining : Nat) : List EvidenceItem :=
  ((dimFormatted env p dim remaining).insertionSort itemGE).take
    (min p.max_per_dimension remaining)

/-- `counter_store` (also the untruncated `counter_evidence`): the
counter-query recall, excluding already-selected lines, fetched without
context. -/
def dimCounterItems (env : RetrievalEnv) (p : RetrievalParams)
    (dim : DimensionPlan) (remaining : Nat) : List EvidenceItem :=
  if p.use_semantic ∧ dim.counter_queries ≠ [] ∧ env.semAvailable then
    let ctk := min p.max_list_items (max 5 (p.max_per_dimension / 2))
    let cl : List (Nat × Q) := dim.counter_queries.foldl
      (fun acc q => (env.semOracle q ctk).foldl
        (fun a pr => maxInsert a pr.1 (clamp01 ((pr.2 + 1) / 2))) acc) []
    let cands := (cl.map (fun kv => kv.1)).filter
      (fun ln => ln ∉ dimSelected env p dim remaining)
    if cands = [] then []
    else
      let cmsgs := get_messages_by_lines env.log (cands.take ctk) 0 0
      (cmsgs.filter (fun m => m.is_match)).map
        (fun m => buildItem p (dimName dim)
          (roundQ4 ((qLookup cl m.line_number).getD 0)) true m)
  else []

/-- The response entry of a dimension whose combined recall is empty
(the `continue` branch: coverage plan intact, budget untouched). -/
def dimEmptyOutput (env : RetrievalEnv) (dim : DimensionPlan) : DimensionOutput :=
  { name := dimName dim, intent := dim.intent, evidence := [], counter_evidence := []
    coverage_topic_seeds := dimTopicSeeds env dim
    coverage_keyword_seeds := dim.keyword_seeds
    coverage_semantic_queries := dim.semantic_queries
    coverage_counter_queries := dim.counter_queries
    omitted_count := 0, min_evidence := dim.min_evidence }

/-- The body of the per-dimension loop of `_retrieve_evidence_impl`
(the part after the `remaining_budget <= 0` break check). -/
def retrieveDimension (env : RetrievalEnv) (p : RetrievalParams)
    (dim : DimensionPlan) (remaining : Nat) : DimStep :=
  if dimCombined env p dim = [] then
    { output := dimEmptyOutput env dim, stored := [], remaining := remaining }
  else
    let final := dimFinal env p dim remaining
    let citems := dimCounterItems env p dim remaining
    { output :=
        { name := dimName dim, intent := dim.intent
          evidence := final
          counter_evidence := citems.take (max 1 (p.max_per_dimension / 3))
          coverage_topic_seeds := dimTopicSeeds env dim
          coverage_keyword_seeds := dim.keyword_seeds
          coverage_semantic_queries := dim.semantic_queries
          coverage_counter_queries := dim.counter_queries
          omitted_count := (dimCombined env p dim).length
            - (dimSelected env p dim remaining).length
          min_evidence := dim.min_evidence }
      stored := final ++ citems
      remaining := remaining - final.length }

/-- The dimension loop: `for dim in dimensions: if remaining_budget <= 0:
break; ...`.  Returns the response entries, the accumulated
`evidence_store`, and the final remaining budget. -/
def retrieveLoop (env : RetrievalEnv) (p : RetrievalParams) :
    List DimensionPlan → Nat → List DimensionOutput × List EvidenceItem × Nat
  | [], remaining => ([], [], remaining)
  | d :: ds, remaining =>
    if remaining = 0 then ([], [], remaining)
    else
      let step := retrieveDimension env p d remaining
      let rest := retrieveLoop env p ds step.remaining
      (step.output :: rest.1, step.stored ++ rest.2.1, rest.2.2)

/- ------------------------------------------------------------------ -/
/- cleaner.py : ChatlogCleaner.compress_messages                       -/
/- ------------------------------------------------------------------ -/

/-- Selection skeleton of `compress_messages`.  `relOf i` is the final
relevance score attached to the `i`-th input message (the Poe model's
parsed, clamped score, or the default 5); `shrink` is
`_compress_single_message`.  With no configured client the source
returns `messages[:max_output_messages]`; otherwise it sorts by
relevance descending, keeps the first `max_output_messages`, compresses
the verbose low-relevance entries, and re-sorts by time. -/
def compress_messages (configured : Bool) (relOf : Nat → Nat)
    (shrink : String → String) (msgs : List EvidenceItem) (maxOut : Nat) :
    List EvidenceItem :=
  if msgs = [] then []
  else if configured = false then msgs.take maxOut
  else
    let scored := msgs.enum.map (fun pr => (relOf pr.1, pr.2))
    let sorted := scored.insertionSort (fun a b => b.1 ≤ a.1)
    let selected := (sorted.take maxOut).map
      (fun pr =>
        if 200 < pr.2.content.length ∧ pr.1 < 8 then
          { pr.2 with content := shrink pr.2.content }
        else pr.2)
    selected.insertionSort (fun a b => a.time ≤ b.time)

/-- The response of one `_retrieve_evidence_impl` call: the
per-dimension entries and the payload stored under `evidence_id`
(`remaining` is the internal budget left, kept for the invariants). -/
structure RetrieveResult where
  dimensions : List DimensionOutput
  stored : List EvidenceItem
  remaining : Nat
deriving Repr

/-- `_retrieve_evidence_impl` from the point where the dimension plan is
fixed: run the loop, then optionally compress the stored evidence
(the compression step runs only when `use_compression` is set, the
store is non-empty, and the Poe client is configured). -/
def retrieve_evidence (env : RetrievalEnv) (p : RetrievalParams)
    (dims : List DimensionPlan) : RetrieveResult :=
  let r := retrieveLoop env p dims p.max_total_messages
  let store := r.2.1
  let stored :=
    if p.use_compression ∧ store ≠ [] ∧ env.poeConfigured then
      compress_messages true env.relOracle env.shrinkOracle store p.max_total_messages
    else store
  { dimensions := r.1, stored := stored, remaining := r.2.2 }

/- ------------------------------------------------------------------ -/
/- Spec-side definition for the rank-and-select refinement claim        -/
/- ------------------------------------------------------------------ -/

/-- The ranking the spec's words describe (spec §4.4 step 5): sort by
`(score desc, line_number desc)` — on equal scores the *larger* line
number first.  Defined from the spec's words, to be compared against
`dimRanked`, which embeds the source. -/
def specRankGE (score : Nat → Q) (a b : Nat) : Prop :=
  Q.lt (score b) (score a) ∨ (Q.equiv (score a) (score b) ∧ b ≤ a)

instance (score : Nat → Q) : DecidableRel (specRankGE score) := fun a b => by
  unfold specRankGE; infer_instance

/-- Rank-and-select as the spec's words describe it. -/
def specRanked (env : RetrievalEnv) (p : RetrievalParams)
    (dim : DimensionPlan) : List Nat :=
  (dimCombined env p dim).insertionSort (specRankGE (dimScoreFn env p dim))

/- ------------------------------------------------------------------ -/
/- Concrete inputs used by the witnesses and counterexamples            -/
/- ------------------------------------------------------------------ -/

/-- A record tagged topic "a". -/
def rAlice : RawRecord :=
  { content := "alice: loan talk", timestamp := "2024-01-01 10:00:00"
    topics := ["a"], sentiment := "positive", factKeys := [], infoDensity := "low" }

/-- A record tagged topic "b". -/
def rBob : RawRecord :=
  { content := "bob: other talk", timestamp := "2024-01-01 10:05:00"
    topics := ["b"], sentiment := "negative", factKeys := [], infoDensity := "low" }

/-- A record whose metadata lists the same topic twice. -/
def rDup : RawRecord :=
  { content := "carol: twice", timestamp := "2024-01-02 09:00:00"
    topics := ["a", "a"], sentiment := "", factKeys := [], infoDensity := "" }

/-- A second record tagged topic "a" (for score ties). -/
def rAlice2 : RawRecord :=
  { content := "alice: more loan talk", timestamp := "2024-01-01 11:00:00"
    topics := ["a"], sentiment := "neutral", factKeys := [], infoDensity := "low" }

/-- Two-line log: line 1 topic "a", line 2 topic "b". -/
def logAB : Log := [.record rAlice, .record rBob]

/-- Log whose first line is blank, so file line 2 holds the first
parsed message. -/
def logGap : Log := [.blank, .record rAlice]

/-- One-line log with a duplicated topic. -/
def logDup : Log := [.record rDup]

/-- Two-line log where both lines are tagged topic "a" (equal fusion
scores). -/
def logTie : Log := [.record rAlice, .record rAlice2]

/-- Demo environment over a log: the metadata index is built, saved and
loaded from the log itself; semantic search is driven by the given
oracle; no keyword hits; the Poe client is configured; the relevance
oracle scores every message 5 and compression shrinks nothing. -/
def mkEnv (log : Log) (semAvail : Bool)
    (sem : String → Nat → List (Nat × Q)) : RetrievalEnv :=
  { log := log
    index := load_index (save_index (build_index log))
    semAvailable := semAvail
    semOracle := sem
    keywordOracle := fun _ => []
    poeConfigured := true
    relOracle := fun _ => 5
    shrinkOracle := fun s => s }

/-- Demo parameters: per-dimension cap 5, total message budget 1,
weights 0.4/0.6 (already normalized), compression off. -/
def pDemo : RetrievalParams :=
  { max_per_dimension := 5, max_total_messages := 1, snippet_chars := 100
    context_before := 0, context_after := 0, use_semantic := true
    use_compression := false, target_person := none
    kw_weight := Q.ofFrac 2 5, sem_weight := Q.ofFrac 3 5
    max_content_chars := 500, max_list_items := 80 }

/-- A semantic oracle that answers only the counter query "cq" with the
raw cosine 0 at line 2. -/
def semCq : String → Nat → List (Nat × Q) :=
  fun q _ => if q = "cq" then [(2, 0)] else []

/-- Dimension with one topic seed "a" and one counter query. -/
def dimACounter : DimensionPlan :=
  { name := "d1", topic_seeds := ["a"], counter_queries := ["cq"] }

/-- Dimension with just the topic seed "a". -/
def dimA : DimensionPlan := { name := "d1", topic_seeds := ["a"] }

/-- Dimension with just the topic seed "b". -/
def dimB : DimensionPlan := { name := "d2", topic_seeds := ["b"] }

/-- Demo parameters with compression switched on. -/
def pComp : RetrievalParams := { pDemo with use_compression := true }

/-- Whether a file line parsed successfully. -/
def FileLine.isRecord : FileLine → Bool
  | .record _ => true
  | _ => false

/-- The topic keys a file line contributes to the index (none unless it
parses). -/
def recTopics : FileLine → List String
  | .record r => indexTopicKeys r
  | _ => []

/-- The occurrence list of topic `t` from line number `n` on: one copy
of the line number per time the line lists `t`. -/
def occFrom (t : String) : Nat → Log → List Nat
  | _, [] => []
  | n, l :: ls => List.replicate ((recTopics l).count t) n ++ occFrom t (n + 1) ls

instance : Inhabited EvidenceItem :=
  ⟨{ line := 0, time := "", sender := "", content := "", snippet := ""
     topics := [], score := 0, dimension := "", mentions_target := false
     is_counter := false }⟩

/- ================================================================== -/
/- Theorems                                                            -/
/- ================================================================== -/

/-- Positivity of a denominator, as an integer. -/
theorem Q.denInt_pos (a : Q) : (0 : Int) < (a.den : Int) :=
  Int.natCast_pos.mpr a.den_pos

theorem Q.lt_trans' {a b c : Q} (h1 : Q.lt a b) (h2 : Q.lt b c) : Q.lt a c := by
  unfold Q.lt at h1 h2 ⊢
  have hda := a.denInt_pos
  have hdb := b.denInt_pos
  have hdc := c.denInt_pos
  have h3 : a.num * (c.den : Int) * (b.den : Int)
      < c.num * (a.den : Int) * (b.den : Int) := by
    nlinarith [mul_lt_mul_of_pos_right h1 hdc, mul_lt_mul_of_pos_right h2 hda]
  exact lt_of_mul_lt_mul_right h3 (le_of_lt hdb)

theorem Q.equiv_symm {a b : Q} (h : Q.equiv a b) : Q.equiv b a := h.symm

theorem Q.lt_of_lt_of_equiv {a b c : Q} (h1 : Q.lt a b) (h2 : Q.equiv b c) :
    Q.lt a c := by
  unfold Q.lt at h1 ⊢
  unfold Q.equiv at h2
  have hda := a.denInt_pos
  have hdb := b.denInt_pos
  have hdc := c.denInt_pos
  have h4 : b.num * (c.den : Int) * (a.den : Int)
      = c.num * (b.den : Int) * (a.den : Int) := by rw [h2]
  have h3 : a.num * (c.den : Int) * (b.den : Int)
      < c.num * (a.den : Int) * (b.den : Int) := by
    nlinarith [mul_lt_mul_of_pos_right h1 hdc]
  exact lt_of_mul_lt_mul_right h3 (le_of_lt hdb)

theorem Q.lt_of_equiv_of_lt {a b c : Q} (h1 : Q.equiv a b) (h2 : Q.lt b c) :
    Q.lt a c := by
  unfold Q.equiv at h1
  unfold Q.lt at h2 ⊢
  have hda := a.denInt_pos
  have hdb := b.denInt_pos
  have hdc := c.denInt_pos
  have h4 : a.num * (b.den : Int) * (c.den : Int)
      = b.num * (a.den : Int) * (c.den : Int) := by rw [h1]
  have h3 : a.num * (c.den : Int) * (b.den : Int)
      < c.num * (a.den : Int) * (b.den : Int) := by
    nlinarith [mul_lt_mul_of_pos_right h2 hda]
  exact lt_of_mul_lt_mul_right h3 (le_of_lt hdb)

theorem Q.equiv_trans {a b c : Q} (h1 : Q.equiv a b) (h2 : Q.equiv b c) :
    Q.equiv a c := by
  unfold Q.equiv at h1 h2 ⊢
  have hdb := b.denInt_pos
  apply mul_right_cancel₀ (ne_of_gt hdb)
  nlinarith [h1, h2]

theorem Q.lt_or_equiv_or_gt (a b : Q) : Q.lt a b ∨ Q.equiv a b ∨ Q.lt b a := by
  unfold Q.lt Q.equiv
  rcases lt_trichotomy (a.num * (b.den : Int)) (b.num * (a.den : Int)) with h | h | h
  · exact Or.inl h
  · exact Or.inr (Or.inl h)
  · exact Or.inr (Or.inr h)

instance (s : Nat → Q) : IsTotal Nat (rankGE s) := by
  constructor
  intro a b
  rcases Q.lt_or_equiv_or_gt (s a) (s b) with h | h | h
  · exact Or.inr (Or.inl h)
  · rcases Nat.le_total a b with hab | hab
    · exact Or.inl (Or.inr ⟨h, hab⟩)
    · exact Or.inr (Or.inr ⟨Q.equiv_symm h, hab⟩)
  · exact Or.inl (Or.inl h)

instance (s : Nat → Q) : IsTrans Nat (rankGE s) := by
  constructor
  intro a b c hab hbc
  rcases hab with hab | ⟨eab, lab⟩
  · rcases hbc with hbc | ⟨ebc, _⟩
    · exact Or.inl (Q.lt_trans' hbc hab)
    · exact Or.inl (Q.lt_of_equiv_of_lt (Q.equiv_symm ebc) hab)
  · rcases hbc with hbc | ⟨ebc, lbc⟩
    · exact Or.inl (Q.lt_of_lt_of_equiv hbc (Q.equiv_symm eab))
    · exact Or.inr ⟨Q.equiv_trans eab ebc, Nat.le_trans lab lbc⟩

/- ------------------------------------------------------------------ -/
/- C2 : rank and select                                                -/
/- ------------------------------------------------------------------ -/

/-- C2 (amended): in the rank-and-select step the candidate lines are
sorted by fusion score descending with ties broken by line number
*ascending* (the source's `key=(score, -line), reverse=True`), and the
result is truncated to `min(max_per_dimension, remaining budget)`.
The spec's "line_number desc" tie-break does not hold (see the
counterexample). -/
theorem rank_and_select (env : RetrievalEnv) (p : RetrievalParams)
    (dim : DimensionPlan) (remaining : Nat) :
    (dimRanked env p dim).Perm (dimCombined env p dim)
  ∧ List.Sorted (rankGE (dimScoreFn env p dim)) (dimRanked env p dim)
  ∧ dimSelected env p dim remaining
      = (dimRanked env p dim).take (min p.max_per_dimension remaining) :=
  ⟨List.perm_insertionSort _ _, List.sorted_insertionSort _ _, rfl⟩

/-- C2 counterexample: two candidate lines with equal fusion score are
ranked `[1, 2]` (line number ascending), while the claimed
`(score desc, line desc)` order would give `[2, 1]`. -/
theorem rank_tiebreak_counterexample :
    Q.equiv (dimScoreFn (mkEnv logTie false (fun _ _ => [])) pDemo dimA 1)
      (dimScoreFn (mkEnv logTie false (fun _ _ => [])) pDemo dimA 2)
  ∧ dimRanked (mkEnv logTie false (fun _ _ => [])) pDemo dimA = [1, 2]
  ∧ specRanked (mkEnv logTie false (fun _ _ => [])) pDemo dimA = [2, 1]
  ∧ dimSelected (mkEnv logTie false (fun _ _ => [])) pDemo dimA 5 = [1, 2] := by
  decide

/- ------------------------------------------------------------------ -/
/- C1 : the message budget                                             -/
/- ------------------------------------------------------------------ -/

/-- One dimension step emits at most `remaining` supporting items and
decrements the budget by exactly the number it emitted. -/
theorem retrieveDimension_budget (env : RetrievalEnv) (p : RetrievalParams)
    (d : DimensionPlan) (r : Nat) :
    (retrieveDimension env p d r).output.evidence.length ≤ r
  ∧ (retrieveDimension env p d r).remaining
      = r - (retrieveDimension env p d r).output.evidence.length := by
  unfold retrieveDimension
  split
  · exact ⟨Nat.zero_le r, by simp [dimEmptyOutput]⟩
  · refine ⟨?_, rfl⟩
    have h : (dimFinal env p d r).length ≤ min p.max_per_dimension r := by
      unfold dimFinal
      rw [List.length_take]
      exact min_le_left _ _
    exact le_trans h (min_le_right _ _)

/-- Across the dimension loop, the supporting items emitted plus the
budget left always equal the initial budget. -/
theorem retrieveLoop_budget (env : RetrievalEnv) (p : RetrievalParams) :
    ∀ (dims : List DimensionPlan) (r : Nat),
      ((retrieveLoop env p dims r).1.map (fun o => o.evidence.length)).sum
        + (retrieveLoop env p dims r).2.2 = r := by
  intro dims
  induction dims with
  | nil => intro r; simp [retrieveLoop]
  | cons d ds ih =>
    intro r
    by_cases hr : r = 0
    · subst hr; simp [retrieveLoop]
    · have hstep := retrieveDimension_budget env p d r
      have hrest := ih (retrieveDimension env p d r).remaining
      simp only [retrieveLoop, if_neg hr, List.map_cons, List.sum_cons]
      omega

/-- C1 (amended): the total number of *supporting* evidence items
emitted across all dimension entries of one `retrieve_evidence` call
never exceeds `max_total_messages`, and the remaining budget equals
`max_total_messages` minus the items actually emitted.  Counter-evidence
is *not* charged against the budget (see the counterexample), so the
claim's "supporting plus counter-evidence" bound fails. -/
theorem budget_invariant_supporting (env : RetrievalEnv) (p : RetrievalParams)
    (dims : List DimensionPlan) :
    ((retrieve_evidence env p dims).dimensions.map (fun o => o.evidence.length)).sum
        + (retrieve_evidence env p dims).remaining = p.max_total_messages
  ∧ ((retrieve_evidence env p dims).dimensions.map (fun o => o.evidence.length)).sum
        ≤ p.max_total_messages := by
  have h := retrieveLoop_budget env p dims p.max_total_messages
  have hdim : (retrieve_evidence env p dims).dimensions
      = (retrieveLoop env p dims p.max_total_messages).1 := rfl
  have hrem : (retrieve_evidence env p dims).remaining
      = (retrieveLoop env p dims p.max_total_messages).2.2 := rfl
  rw [hdim, hrem]
  omega

/-- C1 counterexample: with `max_total_messages = 1` a single dimension
emits one supporting item *and* one counter-evidence item — two items
in total, exceeding the budget, because counter-evidence is never
deducted from it. -/
theorem budget_counter_counterexample :
    pDemo.max_total_messages = 1
  ∧ ((retrieve_evidence (mkEnv logAB true semCq) pDemo [dimACounter]).dimensions.map
      (fun o => o.evidence.length + o.counter_evidence.length)).sum = 2
  ∧ (retrieve_evidence (mkEnv logAB true semCq) pDemo [dimACounter]).stored.length = 2 := by
  decide

/- ------------------------------------------------------------------ -/
/- C4 : behaviour after budget exhaustion                              -/
/- ------------------------------------------------------------------ -/

/-- C4 (amended): once the message budget is exhausted the per-dimension
loop *breaks*: every dimension after the point of exhaustion is omitted
from the output entirely (no empty-evidence entry, no coverage plan),
and the stored evidence is unchanged.  Only a dimension whose combined
recall is empty produces the empty-evidence-with-coverage entry. -/
theorem exhausted_break (env : RetrievalEnv) (p : RetrievalParams) :
    ∀ (ds₁ ds₂ : List DimensionPlan) (r : Nat),
      (retrieveLoop env p ds₁ r).2.2 = 0 →
      retrieveLoop env p (ds₁ ++ ds₂) r = retrieveLoop env p ds₁ r := by
  intro ds₁
  induction ds₁ with
  | nil =>
    intro ds₂ r h
    simp only [retrieveLoop] at h
    subst h
    cases ds₂ with
    | nil => rfl
    | cons d ds => simp [retrieveLoop]
  | cons d ds ih =>
    intro ds₂ r h
    by_cases hr : r = 0
    · subst hr
      simp [retrieveLoop]
    · simp only [List.cons_append, List.append_eq, retrieveLoop, if_neg hr] at h ⊢
      rw [ih ds₂ (retrieveDimension env p d r).remaining h]

/-- Witness for `exhausted_break`: after one dimension consumes the
whole budget of 1, appending a second dimension leaves the loop output
unchanged. -/
theorem exhausted_break_witness :
    (retrieveLoop (mkEnv logAB false (fun _ _ => [])) pDemo [dimA] 1).2.2 = 0
  ∧ retrieveLoop (mkEnv logAB false (fun _ _ => [])) pDemo ([dimA] ++ [dimB]) 1
      = retrieveLoop (mkEnv logAB false (fun _ _ => [])) pDemo [dimA] 1 :=
  ⟨by decide, exhausted_break _ _ [dimA] [dimB] 1 (by decide)⟩

/-- C4 counterexample: with budget 1, dimension "d1" consumes the budget
and dimension "d2" does not appear in the output at all — contradicting
the claim that it would appear with empty evidence and its coverage
plan intact. -/
theorem exhausted_dims_dropped_counterexample :
    ((retrieve_evidence (mkEnv logAB false (fun _ _ => [])) pDemo [dimA, dimB]).dimensions.map
        (fun o => o.name)) = ["d1"]
  ∧ ¬ (∃ o ∈ (retrieve_evidence (mkEnv logAB false (fun _ _ => []))
        pDemo [dimA, dimB]).dimensions, o.name = "d2") := by
  decide

/- ------------------------------------------------------------------ -/
/- C5 : the session tool-call budget is never consulted                -/
/- ------------------------------------------------------------------ -/

/-- C5 (code bug): the `ToolBudget` component itself behaves as the
claim says — after one recorded call against `max_tool_calls = 1`,
`can_call_tool` is false, the budget is over, and the gap annotation
names the tool-call ceiling.  But `_retrieve_evidence_impl` never
consults the budget manager (`budget_manager` is not imported by
`mcp_server`), so a second retrieval call runs the full pipeline and
returns the same non-empty evidence as the first, with no gap
annotation. -/
theorem second_call_ignores_budget :
    ((mkBudget 1 40 12000).record_tool_call "retrieve_evidence" 120).can_call_tool = false
  ∧ ((mkBudget 1 40 12000).record_tool_call "retrieve_evidence" 120).is_over_budget = true
  ∧ ToolBudget.gapNote ((mkBudget 1 40 12000).record_tool_call "retrieve_evidence" 120)
      = "⚠️ 证据收集受预算限制: 已达工具调用上限(1次)"
  ∧ ((retrieve_evidence (mkEnv logAB false (fun _ _ => [])) pDemo [dimA]).dimensions.map
      (fun o => o.evidence.map (fun e => e.line))) = [[1]] := by
  decide

/- ------------------------------------------------------------------ -/
/- C3 : SemanticIndex.search error handling                            -/
/- ------------------------------------------------------------------ -/

/-- C3 (amended): `SemanticIndex.search` returns the empty list and
never raises when the artifact files are missing (or fail to load);
and it never raises when the embedding call succeeds.  But when the
artifacts are present and the embedding call *fails*, the
`RuntimeError` from `_embed_texts` propagates out of `search`
uncaught — the "never an exception" half of the claim fails. -/
theorem semantic_search_error_handling :
    (∀ (embed : EmbedOutcome) (sim : List Q → List Q → Q) (k : Nat),
        semSearch none embed sim k = Except.ok [])
  ∧ (∀ (a : SemArtifacts) (msg : String) (sim : List Q → List Q → Q) (k : Nat),
        semSearch (some a) (EmbedOutcome.fail msg) sim k
          = Except.error ("Embedding request failed: " ++ msg))
  ∧ (∀ (a : SemArtifacts) (q : List Q) (sim : List Q → List Q → Q) (k : Nat),
        ∃ res, semSearch (some a) (EmbedOutcome.ok q) sim k = Except.ok res) := by
  refine ⟨fun _ _ _ => rfl, fun _ _ _ _ => rfl, ?_⟩
  intro a q sim k
  simp only [semSearch]
  split
  · exact ⟨[], rfl⟩
  · split
    · exact ⟨[], rfl⟩
    · exact ⟨_, rfl⟩

/-- C3 counterexample: with artifacts present and a failing embedding
call, `search` propagates the error instead of returning `[]`. -/
theorem semantic_search_raises_counterexample :
    semSearch (some ⟨[[Q.ofInt 1]], [1]⟩) (EmbedOutcome.fail "boom") (fun _ _ => 0) 50
      = Except.error "Embedding request failed: boom" := rfl

/- ------------------------------------------------------------------ -/
/- C10 : over-budget iff non-empty gap annotation                      -/
/- ------------------------------------------------------------------ -/

/-- Appending different same-length prefixes yields different strings. -/
theorem strAppend_ne (p q x y : String) (hl : p.length = q.length)
    (hne : p ≠ q) : p ++ x ≠ q ++ y := by
  intro h
  apply hne
  have hd := congrArg String.data h
  rw [String.data_append, String.data_append] at hd
  have hlen : p.data.length = q.data.length := hl
  have hpq := List.append_inj_left hd hlen
  cases p
  cases q
  exact congrArg String.mk hpq

theorem callsPhrase_ne_msgsPhrase (b b' : ToolBudget) :
    b.callsPhrase ≠ ToolBudget.msgsPhrase b' :=
  strAppend_ne _ _ _ _ (by decide) (by decide)

theorem callsPhrase_ne_charsPhrase (b b' : ToolBudget) :
    b.callsPhrase ≠ ToolBudget.charsPhrase b' :=
  strAppend_ne _ _ _ _ (by decide) (by decide)

theorem msgsPhrase_ne_charsPhrase (b b' : ToolBudget) :
    b.msgsPhrase ≠ ToolBudget.charsPhrase b' :=
  strAppend_ne _ _ _ _ (by decide) (by decide)

/-- The tool-call phrase appears in the gap list exactly when the
tool-call ceiling has zero remaining budget. -/
theorem gapList_calls_iff (b : ToolBudget) :
    b.callsPhrase ∈ b.gapList ↔ b.remainingCalls = 0 := by
  unfold ToolBudget.gapList
  by_cases hc : b.remainingCalls = 0 <;> by_cases hm : b.remainingMsgs = 0 <;>
    by_cases hch : b.remainingChars = 0 <;>
    simp [hc, hm, hch, callsPhrase_ne_msgsPhrase, callsPhrase_ne_charsPhrase]

/-- The loaded-messages phrase appears in the gap list exactly when the
message ceiling has zero remaining budget. -/
theorem gapList_msgs_iff (b : ToolBudget) :
    b.msgsPhrase ∈ b.gapList ↔ b.remainingMsgs = 0 := by
  unfold ToolBudget.gapList
  by_cases hc : b.remainingCalls = 0 <;> by_cases hm : b.remainingMsgs = 0 <;>
    by_cases hch : b.remainingChars = 0 <;>
    simp [hc, hm, hch, msgsPhrase_ne_charsPhrase,
      fun b b' => (callsPhrase_ne_msgsPhrase b b').symm]

/-- The result-characters phrase appears in the gap list exactly when
the character ceiling has zero remaining budget. -/
theorem gapList_chars_iff (b : ToolBudget) :
    b.charsPhrase ∈ b.gapList ↔ b.remainingChars = 0 := by
  unfold ToolBudget.gapList
  by_cases hc : b.remainingCalls = 0 <;> by_cases hm : b.remainingMsgs = 0 <;>
    by_cases hch : b.remainingChars = 0 <;>
    simp [hc, hm, hch, fun b b' => (callsPhrase_ne_charsPhrase b b').symm,
      fun b b' => (msgsPhrase_ne_charsPhrase b b').symm]

/-- The gap annotation is non-empty exactly when the gap list is. -/
theorem gapNote_ne_empty_iff (b : ToolBudget) :
    ToolBudget.gapNote b ≠ "" ↔ b.gapList ≠ [] := by
  unfold ToolBudget.gapNote
  by_cases h : b.gapList = []
  · simp [h]
  · rw [if_neg h]
    constructor
    · intro _; exact h
    · intro _ heq
      have hlen := congrArg String.length heq
      rw [String.length_append] at hlen
      have hp : 0 < ("⚠️ 证据收集受预算限制: ").length := by decide
      simp at hlen
      omega

/-- `is_over_budget` is true exactly when the gap annotation is
non-empty (for every `ToolBudget` state whatsoever). -/
theorem overBudget_iff_gapNote (b : ToolBudget) :
    b.is_over_budget = true ↔ ToolBudget.gapNote b ≠ "" := by
  rw [gapNote_ne_empty_iff]
  have hc : b.remainingCalls = 0 ↔ b.max_tool_calls ≤ b.tool_calls :=
    Nat.sub_eq_zero_iff_le
  have hm : b.remainingMsgs = 0 ↔ b.max_loaded_messages ≤ b.loaded_messages :=
    Nat.sub_eq_zero_iff_le
  have hch : b.remainingChars = 0 ↔ b.max_tool_result_chars ≤ b.total_result_chars :=
    Nat.sub_eq_zero_iff_le
  simp only [ToolBudget.is_over_budget, decide_eq_true_eq]
  unfold ToolBudget.gapList
  by_cases h1 : b.remainingCalls = 0 <;> by_cases h2 : b.remainingMsgs = 0 <;>
    by_cases h3 : b.remainingChars = 0 <;>
    simp [h1, h2, h3, ← hc, ← hm, ← hch]

/- ------------------------------------------------------------------ -/
/- C9 : get_message is positional                                      -/
/- ------------------------------------------------------------------ -/

/-- When every line of a log parses, the `i`-th loaded message carries
line number `k + i` (loading having started at line `k`). -/
theorem loadFrom_line_number :
    ∀ (ls : Log), (∀ l ∈ ls, l.isRecord = true) →
      ∀ (k i : Nat) (msg : ChatMessage),
        (loadFrom k ls).get? i = some msg → msg.line_number = k + i := by
  intro ls
  induction ls with
  | nil => intro _ k i msg h; simp [loadFrom] at h
  | cons l ls ih =>
    intro hall k i msg h
    have hl : l.isRecord = true := hall l (List.mem_cons_self l ls)
    cases l with
    | blank => simp [FileLine.isRecord] at hl
    | malformed => simp [FileLine.isRecord] at hl
    | record r =>
      cases i with
      | zero =>
        simp only [loadFrom, List.get?] at h
        cases h
        rfl
      | succ i =>
        simp only [loadFrom, List.get?] at h
        have := ih (fun x hx => hall x (List.mem_cons_of_mem _ hx)) (k + 1) i msg h
        omega

/-- C9: `get_message(n)` returns the `n`-th successfully parsed message
(positional), `None` outside `1..count`; when every line parses the
returned message's `line_number` equals `n`; and on a log whose first
line is blank the two notions diverge: `get_message 1` returns the
message stored at file line 2, and `get_message` at that message's own
`line_number` returns `None`. -/
theorem get_message_nth_parsed :
    (∀ (log : Log) (n : Int),
        (n < 1 ∨ ((load log).length : Int) < n) → get_message (load log) n = none)
  ∧ (∀ (log : Log) (n : Int), 1 ≤ n → n ≤ ((load log).length : Int) →
        get_message (load log) n = (load log).get? (n - 1).toNat)
  ∧ (∀ (log : Log), (∀ l ∈ log, l.isRecord = true) →
        ∀ (n : Int) (msg : ChatMessage),
          get_message (load log) n = some msg → (msg.line_number : Int) = n)
  ∧ ((get_message (load logGap) 1).map (fun m => m.line_number) = some 2
      ∧ get_message (load logGap) 2 = none) := by
  refine ⟨?_, ?_, ?_, by decide, by decide⟩
  · intro log n h
    simp only [get_message]
    split
    · rename_i hcond
      exfalso
      omega
    · rfl
  · intro log n h1 h2
    have hcond : 0 ≤ n - 1 ∧ n - 1 < ((load log).length : Int) := by omega
    simp only [get_message, if_pos hcond]
  · intro log hall n msg hm
    simp only [get_message] at hm
    split at hm
    · rename_i hcond
      have := loadFrom_line_number log hall 1 (n - 1).toNat msg hm
      omega
    · simp at hm

/-- Witness for `get_message_nth_parsed` on a fully parsed two-line
log. -/
theorem get_message_nth_parsed_witness :
    get_message (load logAB) 3 = none
  ∧ get_message (load logAB) 2 = (load logAB).get? 1
  ∧ ((get_message (load logAB) 2).map (fun m => (m.line_number : Int))) = some 2 := by
  refine ⟨?_, ?_, ?_⟩
  · exact get_message_nth_parsed.1 logAB 3 (Or.inr (by decide))
  · exact get_message_nth_parsed.2.1 logAB 2 (by decide) (by decide)
  · have hm : get_message (load logAB) 2 = some (mkChatMessage 2 rBob) := by decide
    have h3 := get_message_nth_parsed.2.2.1 logAB (by decide) 2 (mkChatMessage 2 rBob) hm
    rw [hm]
    simpa using h3

/- ------------------------------------------------------------------ -/
/- C6/C7 machinery : the per-topic occurrence list                     -/
/- ------------------------------------------------------------------ -/

/-- Appending to one key of the dict appends to exactly that key's
list. -/
theorem dictGet_dictAppend (d : List (String × List Nat)) (k : String)
    (n : Nat) (t : String) :
    dictGet (dictAppend d k n) t = dictGet d t ++ (if k = t then [n] else []) := by
  induction d with
  | nil =>
    simp only [dictAppend, dictGet]
    split <;> rename_i h
    · simp [h]
    · simp [h]
  | cons kv rest ih =>
    obtain ⟨k', v⟩ := kv
    by_cases h1 : k' = k
    · subst h1
      by_cases h2 : k' = t
      · subst h2
        simp [dictAppend, dictGet]
      · simp [dictAppend, dictGet, h2]
    · by_cases h2 : k' = t
      · subst h2
        have h3 : k ≠ k' := fun h => h1 h.symm
        simp [dictAppend, dictGet, h1, h3]
      · simp [dictAppend, dictGet, h1, h2, ih]

/-- The topic fold of one record appends one copy of the line number
per occurrence of the topic among the record's (indexed) topic keys. -/
theorem topicFold_topicIndex :
    ∀ (keys : List String) (idx : MetadataIndex) (t : String) (n : Nat),
      dictGet ((keys.foldl (topicStep n) idx).topic_index) t
        = dictGet idx.topic_index t ++ List.replicate (keys.count t) n := by
  intro keys
  induction keys with
  | nil => intro idx t n; simp
  | cons k ks ih =>
    intro idx t n
    simp only [List.foldl_cons]
    rw [ih]
    have hstep : dictGet ((topicStep n idx k).topic_index) t
        = dictGet idx.topic_index t ++ (if k = t then [n] else []) := by
      simp [topicStep, dictGet_dictAppend]
    rw [hstep]
    by_cases h : t = k
    · subst h
      simp [List.count_cons, List.replicate_succ, List.append_assoc]
    · have h' : k ≠ t := fun hh => h hh.symm
      simp [List.count_cons, h, h']

/-- The fact-key fold leaves the topic index untouched. -/
theorem factFold_topicIndex :
    ∀ (keys : List String) (idx : MetadataIndex) (n : Nat),
      ((keys.foldl (factStep n) idx)).topic_index = idx.topic_index := by
  intro keys
  induction keys with
  | nil => intro idx n; rfl
  | cons k ks ih => intro idx n; simp only [List.foldl_cons]; rw [ih]; rfl

/-- Indexing one record appends its topic-occurrence block. -/
theorem dictGet_indexRecord (idx : MetadataIndex) (n : Nat) (r : RawRecord)
    (t : String) :
    dictGet (indexRecord idx n r).topic_index t
      = dictGet idx.topic_index t
        ++ List.replicate ((indexTopicKeys r).count t) n := by
  have h4 : ∀ (m : MetadataIndex),
      (if r.infoDensity ≠ "" then
        { m with info_density_index := dictAppend m.info_density_index r.infoDensity n }
      else m).topic_index = m.topic_index := by
    intro m; split <;> rfl
  have h2 : ∀ (m : MetadataIndex),
      (if r.sentiment ≠ "" then
        { m with sentiment_index := dictAppend m.sentiment_index r.sentiment n }
      else m).topic_index = m.topic_index := by
    intro m; split <;> rfl
  show dictGet ((if r.infoDensity ≠ "" then _ else _) : MetadataIndex).topic_index t = _
  rw [h4, factFold_topicIndex, h2, topicFold_topicIndex]

/-- Building from line `n` on appends the occurrence list. -/
theorem dictGet_buildFrom (t : String) :
    ∀ (ls : Log) (n : Nat) (idx : MetadataIndex),
      dictGet (buildFrom n ls idx).topic_index t
        = dictGet idx.topic_index t ++ occFrom t n ls := by
  intro ls
  induction ls with
  | nil => intro n idx; simp [buildFrom, occFrom]
  | cons l ls ih =>
    intro n idx
    cases l with
    | record r =>
      simp only [buildFrom, occFrom, recTopics]
      rw [ih, dictGet_indexRecord, List.append_assoc]
    | blank =>
      simp only [buildFrom, occFrom, recTopics]
      rw [ih]
      simp
    | malformed =>
      simp only [buildFrom, occFrom, recTopics]
      rw [ih]
      simp

/-- The built topic index, per topic, is exactly the occurrence list of
that topic over the log. -/
theorem dictGet_build (log : Log) (t : String) :
    dictGet (build_index log).topic_index t = occFrom t 1 log := by
  unfold build_index
  rw [dictGet_buildFrom]
  simp [MetadataIndex.empty, dictGet]

/-- Every occurrence-list entry is at least the starting line number. -/
theorem occFrom_ge (t : String) :
    ∀ (ls : Log) (n x : Nat), x ∈ occFrom t n ls → n ≤ x := by
  intro ls
  induction ls with
  | nil => intro n x h; simp [occFrom] at h
  | cons l ls ih =>
    intro n x h
    simp only [occFrom, List.mem_append] at h
    rcases h with h | h
    · exact (List.eq_of_mem_replicate h).symm.le
    · exact Nat.le_of_succ_le (ih (n + 1) x h)

/-- The occurrence list is sorted (non-decreasing). -/
theorem occFrom_sorted (t : String) :
    ∀ (ls : Log) (n : Nat), List.Pairwise (· ≤ ·) (occFrom t n ls) := by
  intro ls
  induction ls with
  | nil => intro n; simp [occFrom]
  | cons l ls ih =>
    intro n
    simp only [occFrom]
    rw [List.pairwise_append]
    refine ⟨List.pairwise_replicate.mpr (Or.inr (le_refl n)), ih (n + 1), ?_⟩
    intro x hx y hy
    have hx' := List.eq_of_mem_replicate hx
    have hy' := occFrom_ge t ls (n + 1) y hy
    omega

/-- When no line lists the topic twice, the occurrence list is strictly
increasing. -/
theorem occFrom_sorted_strict (t : String) :
    ∀ (ls : Log) (n : Nat), (∀ l ∈ ls, (recTopics l).count t ≤ 1) →
      List.Pairwise (· < ·) (occFrom t n ls) := by
  intro ls
  induction ls with
  | nil => intro n _; simp [occFrom]
  | cons l ls ih =>
    intro n hcount
    have hhead := hcount l (List.mem_cons_self l ls)
    have htail : ∀ x ∈ ls, (recTopics x).count t ≤ 1 :=
      fun x hx => hcount x (List.mem_cons_of_mem l hx)
    simp only [occFrom]
    rw [List.pairwise_append]
    refine ⟨?_, ih (n + 1) htail, ?_⟩
    · interval_cases h : (recTopics l).count t
      · simp
      · simp
    · intro x hx y hy
      have hx' := List.eq_of_mem_replicate hx
      have hy' := occFrom_ge t ls (n + 1) y hy
      omega

/-- Every occurrence-list entry comes from a parsed line that lists the
topic. -/
theorem occFrom_mem (t : String) :
    ∀ (ls : Log) (n x : Nat), x ∈ occFrom t n ls →
      ∃ i r, ls.get? i = some (FileLine.record r) ∧ x = n + i
        ∧ t ∈ indexTopicKeys r := by
  intro ls
  induction ls with
  | nil => intro n x h; simp [occFrom] at h
  | cons l ls ih =>
    intro n x h
    simp only [occFrom, List.mem_append] at h
    rcases h with h | h
    · rw [List.mem_replicate] at h
      obtain ⟨hc, hx⟩ := h
      have hmem : t ∈ recTopics l := by
        by_contra hmem
        exact hc (List.count_eq_zero.mpr hmem)
      cases l with
      | blank => simp [recTopics] at hmem
      | malformed => simp [recTopics] at hmem
      | record r => exact ⟨0, r, rfl, by omega, hmem⟩
    · obtain ⟨i, r, hg, hx, htop⟩ := ih (n + 1) x h
      exact ⟨i + 1, r, hg, by omega, htop⟩

/-- C10: in every `ToolBudget` state reachable by any sequence of
`record_tool_call` / `record_messages` operations, `is_over_budget` is
true iff `get_gap_annotation` is non-empty, and each ceiling's phrase
appears in the annotation's gap list exactly when that ceiling's
remaining budget is zero. -/
theorem budget_gap_consistency (mc mm mch : Nat) (ops : List BudgetOp) :
    ((applyOps (mkBudget mc mm mch) ops).is_over_budget = true
        ↔ ToolBudget.gapNote (applyOps (mkBudget mc mm mch) ops) ≠ "")
  ∧ ((applyOps (mkBudget mc mm mch) ops).callsPhrase
        ∈ (applyOps (mkBudget mc mm mch) ops).gapList
      ↔ (applyOps (mkBudget mc mm mch) ops).remainingCalls = 0)
  ∧ ((applyOps (mkBudget mc mm mch) ops).msgsPhrase
        ∈ (applyOps (mkBudget mc mm mch) ops).gapList
      ↔ (applyOps (mkBudget mc mm mch) ops).remainingMsgs = 0)
  ∧ ((applyOps (mkBudget mc mm mch) ops).charsPhrase
        ∈ (applyOps (mkBudget mc mm mch) ops).gapList
      ↔ (applyOps (mkBudget mc mm mch) ops).remainingChars = 0) :=
  ⟨overBudget_iff_gapNote _, gapList_calls_iff _, gapList_msgs_iff _,
    gapList_chars_iff _⟩

/- ------------------------------------------------------------------ -/
/- C7 : build → save → load round-trip                                 -/
/- ------------------------------------------------------------------ -/

/-- Decoding inverts encoding on line-number arrays. -/
theorem decodeNats_encode (v : List Nat) :
    decodeNats (Json.arr (v.map (fun n => Json.num (Int.ofNat n)))) = v := by
  induction v with
  | nil => rfl
  | cons a v ih =>
    show (Int.ofNat a).toNat
        :: decodeNats (Json.arr (v.map (fun n => Json.num (Int.ofNat n)))) = a :: v
    rw [ih]
    rfl

/-- Decoding inverts encoding on index dictionaries. -/
theorem decodeDict_encode (d : List (String × List Nat)) :
    decodeDict (encodeDict d) = d := by
  induction d with
  | nil => rfl
  | cons kv d ih =>
    show (kv.1, decodeNats (Json.arr (kv.2.map (fun n => Json.num (Int.ofNat n)))))
        :: decodeDict (encodeDict d) = kv :: d
    rw [ih, decodeNats_encode]

/-- Decoding inverts encoding on string arrays. -/
theorem decodeStrs_encode (l : List String) :
    decodeStrs (Json.arr (l.map Json.str)) = l := by
  induction l with
  | nil => rfl
  | cons s l ih =>
    show s :: decodeStrs (Json.arr (l.map Json.str)) = s :: l
    rw [ih]

/-- Loading the saved artifact recovers every field; `available_topics`
comes back in sorted order. -/
theorem load_save (idx : MetadataIndex) :
    load_index (save_index idx) =
      { topic_index := idx.topic_index
        sentiment_index := idx.sentiment_index
        fact_keys_index := idx.fact_keys_index
        info_density_index := idx.info_density_index
        available_topics := idx.available_topics.insertionSort strLE
        line_count := idx.line_count } := by
  have h : load_index (save_index idx) =
      { topic_index := decodeDict (encodeDict idx.topic_index)
        sentiment_index := decodeDict (encodeDict idx.sentiment_index)
        fact_keys_index := decodeDict (encodeDict idx.fact_keys_index)
        info_density_index := decodeDict (encodeDict idx.info_density_index)
        available_topics := decodeStrs
          (Json.arr ((idx.available_topics.insertionSort strLE).map Json.str))
        line_count := idx.line_count } := rfl
  rw [h, decodeDict_encode, decodeDict_encode, decodeDict_encode,
    decodeDict_encode, decodeStrs_encode]

/-- C7: building the index and querying directly agrees with building,
saving to the JSON artifact, loading, and querying: every topic's
`search_by_topic_exact` list is identical, `available_topics` has the
same members, and `line_count` is unchanged. -/
theorem index_roundtrip (log : Log) :
    (∀ t, search_by_topic_exact (load_index (save_index (build_index log))) t
        = dictGet (build_index log).topic_index t)
  ∧ (∀ t, t ∈ (load_index (save_index (build_index log))).available_topics
        ↔ t ∈ (build_index log).available_topics)
  ∧ (load_index (save_index (build_index log))).line_count
      = (build_index log).line_count := by
  rw [load_save]
  refine ⟨fun t => rfl, fun t => ?_, rfl⟩
  simp [List.mem_insertionSort]

/- ------------------------------------------------------------------ -/
/- C6 : search_by_topic_exact                                          -/
/- ------------------------------------------------------------------ -/

/-- C6 (amended): for every topic in `available_topics`, the loaded
index's `search_by_topic_exact` returns a sorted (non-decreasing) list
of line numbers; every returned line's record lists the topic; and the
list is strictly ascending and duplicate-free *provided* no single
message lists the topic twice (after stripping).  A message whose
metadata repeats a topic makes the list repeat its line number (see the
counterexample), so the claim's unconditional "deduplicated" fails. -/
theorem topic_search_sorted (log : Log) (t : String)
    (_ht : t ∈ (load_index (save_index (build_index log))).available_topics) :
    List.Pairwise (· ≤ ·)
        (search_by_topic_exact (load_index (save_index (build_index log))) t)
  ∧ (∀ m ∈ search_by_topic_exact (load_index (save_index (build_index log))) t,
        ∃ r, recordAt log m = some r ∧ t ∈ indexTopicKeys r)
  ∧ ((∀ l ∈ log, (recTopics l).count t ≤ 1) →
      List.Pairwise (· < ·)
          (search_by_topic_exact (load_index (save_index (build_index log))) t)
        ∧ (search_by_topic_exact (load_index (save_index (build_index log))) t).Nodup) := by
  have hs : search_by_topic_exact (load_index (save_index (build_index log))) t
      = occFrom t 1 log := by
    rw [load_save]
    exact dictGet_build log t
  rw [hs]
  refine ⟨occFrom_sorted t log 1, ?_, ?_⟩
  · intro m hm
    obtain ⟨i, r, hg, hx, htop⟩ := occFrom_mem t log 1 m hm
    refine ⟨r, ?_, htop⟩
    subst hx
    simp only [recordAt, lineAt]
    rw [if_neg (by omega : ¬ 1 + i = 0)]
    have : 1 + i - 1 = i := by omega
    rw [this, hg]
  · intro hcount
    have hstrict := occFrom_sorted_strict t log 1 hcount
    exact ⟨hstrict, hstrict.imp (fun hab => Nat.ne_of_lt hab)⟩

/-- Witness for `topic_search_sorted` on a concrete log. -/
theorem topic_search_sorted_witness :
    "a" ∈ (load_index (save_index (build_index logAB))).available_topics
  ∧ List.Pairwise (· < ·)
      (search_by_topic_exact (load_index (save_index (build_index logAB))) "a") := by
  constructor
  · decide
  · exact ((topic_search_sorted logAB "a" (by decide)).2.2 (by decide)).1

/-- C6 counterexample: a message whose metadata lists topic "a" twice
makes `search_by_topic_exact "a"` return `[1, 1]` — neither strictly
ascending nor deduplicated — while "a" is in `available_topics`. -/
theorem topic_search_dup_counterexample :
    "a" ∈ (load_index (save_index (build_index logDup))).available_topics
  ∧ search_by_topic_exact (load_index (save_index (build_index logDup))) "a" = [1, 1]
  ∧ ¬ List.Pairwise (· < ·)
      (search_by_topic_exact (load_index (save_index (build_index logDup))) "a")
  ∧ ¬ (search_by_topic_exact (load_index (save_index (build_index logDup))) "a").Nodup := by
  decide

/- ------------------------------------------------------------------ -/
/- C8 : compression                                                    -/
/- ------------------------------------------------------------------ -/

/-- Every line in the compressed evidence payload was a line of the
input payload (compression selects, it never adds). -/
theorem compress_line_subset (relOf : Nat → Nat) (shrink : String → String)
    (msgs : List EvidenceItem) (maxOut : Nat) :
    ∀ e ∈ compress_messages true relOf shrink msgs maxOut,
      e.line ∈ msgs.map (fun i => i.line) := by
  intro e he
  simp only [compress_messages] at he
  split at he
  · exact absurd he (List.not_mem_nil e)
  · simp only [Bool.true_eq_false, if_false] at he
    rw [List.mem_insertionSort] at he
    obtain ⟨pr, hpr, hfe⟩ := List.mem_map.mp he
    have hpr' : pr ∈ (msgs.enum.map (fun q => (relOf q.1, q.2))).insertionSort
        (fun a b => b.1 ≤ a.1) := List.mem_of_mem_take hpr
    rw [List.mem_insertionSort] at hpr'
    obtain ⟨q, hq, hgq⟩ := List.mem_map.mp hpr'
    have hq2 : q.2 ∈ msgs := by
      have : q.2 ∈ msgs.enum.map Prod.snd := List.mem_map_of_mem Prod.snd hq
      rwa [List.enum_map_snd] at this
    have hline : e.line = q.2.line := by
      subst hgq
      split at hfe
      · subst hfe; rfl
      · subst hfe; rfl
    rw [hline]
    exact List.mem_map_of_mem (fun i => i.line) hq2

/-- The compressed payload has exactly `min maxOut n` entries, where
`n` is the size of the input payload. -/
theorem compress_length (relOf : Nat → Nat) (shrink : String → String)
    (msgs : List EvidenceItem) (maxOut : Nat) :
    (compress_messages true relOf shrink msgs maxOut).length
      = min maxOut msgs.length := by
  simp only [compress_messages]
  split
  · rename_i h
    subst h
    simp
  · simp only [Bool.true_eq_false, if_false]
    rw [List.length_insertionSort, List.length_map, List.length_take,
      List.length_insertionSort, List.length_map, List.enum_length]

/-- C8 (amended): compression never changes the per-dimension response —
the `dimensions` entries (and hence which evidence each dimension shows)
are exactly the loop's output whether or not compression runs.  The
*stored* payload, however, is only shrunk: every stored line was
selected by the loop, and the stored count never exceeds the loop's
count — but with compression on it is truncated to `max_total_messages`
by relevance, so items can be dropped entirely (see the
counterexample), not merely shortened. -/
theorem compression_cosmetic (env : RetrievalEnv) (p : RetrievalParams)
    (dims : List DimensionPlan) :
    (retrieve_evidence env p dims).dimensions
        = (retrieveLoop env p dims p.max_total_messages).1
  ∧ (∀ e ∈ (retrieve_evidence env p dims).stored,
        e.line ∈ (retrieveLoop env p dims p.max_total_messages).2.1.map
          (fun i => i.line))
  ∧ (retrieve_evidence env p dims).stored.length
      ≤ (retrieveLoop env p dims p.max_total_messages).2.1.length := by
  refine ⟨rfl, ?_, ?_⟩
  · intro e he
    have hs : (retrieve_evidence env p dims).stored
        = if p.use_compression ∧ (retrieveLoop env p dims p.max_total_messages).2.1 ≠ []
            ∧ env.poeConfigured then
          compress_messages true env.relOracle env.shrinkOracle
            (retrieveLoop env p dims p.max_total_messages).2.1 p.max_total_messages
        else (retrieveLoop env p dims p.max_total_messages).2.1 := rfl
    rw [hs] at he
    split at he
    · exact compress_line_subset env.relOracle env.shrinkOracle _ _ e he
    · exact List.mem_map_of_mem (fun i => i.line) he
  · have hs : (retrieve_evidence env p dims).stored
        = if p.use_compression ∧ (retrieveLoop env p dims p.max_total_messages).2.1 ≠ []
            ∧ env.poeConfigured then
          compress_messages true env.relOracle env.shrinkOracle
            (retrieveLoop env p dims p.max_total_messages).2.1 p.max_total_messages
        else (retrieveLoop env p dims p.max_total_messages).2.1 := rfl
    rw [hs]
    split
    · rw [compress_length]
      exact min_le_right _ _
    · exact le_refl _

/-- Witness for `compression_cosmetic` on the concrete
counter-evidence scenario with compression enabled. -/
theorem compression_cosmetic_witness :
    ((retrieve_evidence (mkEnv logAB true semCq) pComp [dimACounter]).stored.headI).line
      ∈ (retrieveLoop (mkEnv logAB true semCq) pComp [dimACounter]
          pComp.max_total_messages).2.1.map (fun i => i.line) :=
  (compression_cosmetic (mkEnv logAB true semCq) pComp [dimACounter]).2.1 _ (by decide)

/-- C8 counterexample: the same retrieval with compression on stores
only line 1, while with compression off it stores lines 1 and 2 — the
set of stored evidence lines differs, so compression is not cosmetic. -/
theorem compression_drops_counterexample :
    (retrieve_evidence (mkEnv logAB true semCq) pComp [dimACounter]).stored.map
        (fun e => e.line) = [1]
  ∧ (retrieve_evidence (mkEnv logAB true semCq) pDemo [dimACounter]).stored.map
        (fun e => e.line) = [1, 2]
  ∧ pComp = { pDemo with use_compression := true } := by
  refine ⟨by decide, by decide, rfl⟩

end Chatlog
